import Mathlib

/-!
Shallow embedding of the distillation trainer
(`ocpmodels/trainers/distill_trainer.py`) and proofs about it.

Conventions of the embedding:
* float tensors are modelled over `ℚ` where no square root is involved and
  over `ℝ` (with `Real.sqrt`) where Euclidean norms appear;
* a flat per-atom tensor is a `List`, a per-system tensor is a `List`
  indexed by system position in the batch;
* 3-vectors (positions, forces, displacements) are triples `ℝ × ℝ × ℝ`;
* fallible code paths (`assert`, key-mismatch errors, unbound local
  variables) are modelled with `Except`/`Option`.

The file is organised as definitions first, then lemmas and theorems.
-/

namespace OCP

/-! ## Generic list helpers shared by several embeddings -/

/-- Arithmetic mean of a list, `torch.mean` on a 1-d tensor.
For the empty list this is `0 / 0 = 0`; torch would produce NaN there, so
theorems that depend on the mean of a possibly empty list carry a
nonemptiness hypothesis. -/
def gmean {α : Type} [DivisionRing α] (xs : List α) : α := xs.sum / (xs.length : α)

/-- `torch_scatter.scatter(vals, idx, dim=0, reduce="mean")` with an explicit
output size: bucket `k` receives the mean of all values whose index is `k`,
and `0` when the bucket is empty (torch_scatter divides by a count clamped
to at least one). -/
def scatterMean {α : Type} [DivisionRing α] (vals : List α) (idx : List ℕ) (size : ℕ) :
    List α :=
  (List.range size).map
    (fun k => gmean (((vals.zip idx).filter (fun vi => vi.2 == k)).map (fun vi => vi.1)))

/-- The per-atom system-membership vector `batch[0].batch` built by the
collater: system `i` with `natoms[i]` atoms contributes `natoms[i]` copies of
`i`, in batch order (atoms are contiguous per system, per the data model). -/
def batchVec : List ℕ → List ℕ
  | [] => []
  | n :: rest => List.replicate n 0 ++ (batchVec rest).map (fun j => j + 1)

/-! ## Batch metadata (data model)

Per-system attributes of one collated batch: `sid` (system id, used for
synthetic/real provenance) and `natoms` (atoms per system).  The per-atom
tensors (`tags`, `batch`) have `natoms.sum` entries, ordered by system. -/

structure BatchMeta where
  sids : List ℤ
  natoms : List ℕ

/-! ## Loss weighting policy, `_loss_weights_d1M` -/

/-- Ids strictly above this constant denote synthetic origin
(`batch[0].sid > 4999999` in the source). -/
def synthThreshold : ℤ := 4999999

/-- Embedding of `DistillForcesTrainer._loss_weights_d1M`.
`rho = none` is the "parameter `loss_weighting_synthetic` cannot be found"
branch returning all-ones weights (`ones_like(tags)` is per-atom,
`ones_like(y)` is per-system).  Otherwise the code asserts
`ratio_synth_to_dft > 0`, computes the synthetic mask over `sid`, the batch
fraction `r` as the mean of the 0/1 mask, the weights
`w_dft = 1 / (1 - r + rho*r)` and `w_s = rho * w_dft`, and broadcasts the
per-system choice to atoms through the membership vector
(`torch.isin(batch[0].batch, synth_idx)`). -/
def lossWeightsD1M : Option ℚ → BatchMeta → Except String (List ℚ × List ℚ)
  | none, b =>
      Except.ok (List.replicate b.natoms.sum (1 : ℚ), List.replicate b.sids.length (1 : ℚ))
  | some r, b =>
      if 0 < r then
        let maskBool : List Bool := b.sids.map (fun s => decide (synthThreshold < s))
        let batchRatioSynth : ℚ := gmean (maskBool.map (fun m => if m then (1 : ℚ) else 0))
        let wDft : ℚ := 1 / (1 - batchRatioSynth + r * batchRatioSynth)
        let wS : ℚ := r * wDft
        let weightsPerNode : List ℚ :=
          (batchVec b.natoms).map (fun i => if maskBool.getD i false then wS else wDft)
        let weightsPerSample : List ℚ := maskBool.map (fun m => if m then wS else wDft)
        Except.ok (weightsPerNode, weightsPerSample)
      else Except.error ("assert failed: ratio_synth_to_dft must be positive")

/-- Spec-side formulation: the batch fraction of synthetic systems,
written as a count divided by the number of systems. -/
def synthFraction (sids : List ℤ) : ℚ :=
  ((sids.countP (fun s => decide (synthThreshold < s)) : ℕ) : ℚ) / (sids.length : ℚ)

/-- Spec-side formulation: the real-sample weight `1 / (1 - r + rho*r)`. -/
def wRealSpec (rho : ℚ) (sids : List ℤ) : ℚ :=
  1 / (1 - synthFraction sids + rho * synthFraction sids)

/-- Spec-side formulation: the weight of one system, `rho` times the real
weight when its id exceeds the synthetic threshold. -/
def wSysSpec (rho : ℚ) (sids : List ℤ) (s : ℤ) : ℚ :=
  if synthThreshold < s then rho * wRealSpec rho sids else wRealSpec rho sids

/-- Spec-side per-system weight vector. -/
def specPerSample (rho : ℚ) (b : BatchMeta) : List ℚ :=
  b.sids.map (wSysSpec rho b.sids)

/-- Spec-side per-atom weight vector: each atom receives the weight of the
system it belongs to. -/
def specPerNode (rho : ℚ) (b : BatchMeta) : List ℚ :=
  (batchVec b.natoms).map (fun i => wSysSpec rho b.sids (b.sids.getD i 0))

/-! ## Training-loop resume arithmetic (`train`, lines 855-866) -/

/-- `start_epoch = self.step // len(self.train_loader)` from `train`. -/
def resumeStartEpoch (step loaderLen : ℕ) : ℕ := step / loaderLen

/-- `skip_steps = self.step % len(self.train_loader)` at the first resumed
epoch (where `self.step` is still the persisted counter). -/
def resumeSkipSteps (step loaderLen : ℕ) : ℕ := step % loaderLen

/-! ## Construction-time configuration checks (`__init__`) -/

/-- Slice of the constructor configuration that the construction-time checks
touch: the optional synthetic loss-weighting ratio (never inspected in
`__init__`), the `v2v_geom_lambda` interpolation weight (asserted into
`[0, 1]`), and the distillation coefficients, either a single float or an
explicit list, together with the parsed list of loss names. -/
structure DistillConfig where
  lossWeightingSynthetic : Option ℚ
  v2vGeomLambda : ℚ
  distillLambda : ℚ ⊕ List ℚ
  distillFns : List String

/-- Broadcast of `distill_lambda`: a single float is replicated to the
number of configured loss names, a list is taken as given (its length is
not validated). -/
def broadcastLambdas (dl : ℚ ⊕ List ℚ) (n : ℕ) : List ℚ :=
  match dl with
  | Sum.inl x => List.replicate n x
  | Sum.inr xs => xs

/-- Embedding of the construction-time validation in
`DistillForcesTrainer.__init__`: the only assert over this configuration
slice is `0 <= v2v_geom_lambda <= 1`; on success the constructor stores the
broadcast coefficient list.  `loss_weighting_synthetic` is not read here. -/
def trainerInit (cfg : DistillConfig) : Except String (List ℚ) :=
  if 0 ≤ cfg.v2vGeomLambda ∧ cfg.v2vGeomLambda ≤ 1 then
    Except.ok (broadcastLambdas cfg.distillLambda cfg.distillFns.length)
  else Except.error ("assert failed: v2v_geom_lambda must be between 0 and 1")

/-! ## Global preservation loss, `_global_preservation` -/

/-- All ordered atom pairs within each system, as flat atom indices.  The
source builds these with vectorized offset arithmetic whose own comment
states it implements, per system of size `n`, the pairs
`(offset + k / n, offset + k % n)` for `k < n*n`; the offset is realised
here by shifting the recursive tail. -/
def pairIndices : List ℕ → List (ℕ × ℕ)
  | [] => []
  | n :: rest =>
      ((List.range (n * n)).map (fun k => (k / n, k % n)))
        ++ (pairIndices rest).map (fun p => (p.1 + n, p.2 + n))

/-- Per-pair squared feature distance:
`torch.mean(F.mse_loss(f1, f2, reduction="none"), dim=1)` for one row. -/
def featureDistance (x y : List ℚ) : ℚ :=
  gmean (List.zipWith (fun a b => (a - b) ^ 2) x y)

/-- Embedding of `DistillForcesTrainer._global_preservation` for rank-2
feature tensors (atoms × feature dimension): gather both endpoints of every
intra-system pair, compare the per-pair distance profiles of student and
teacher with a squared difference, average per first-pair-index atom
(`scatter(..., index1, reduce="mean")`), then per system
(`scatter(..., batch, reduce="mean")`), then over systems. -/
def globalPreservation (featS featT : List (List ℚ)) (natoms : List ℕ) : ℚ :=
  let idx := pairIndices natoms
  let featSDistances := idx.map (fun p => featureDistance (featS.getD p.1 []) (featS.getD p.2 []))
  let featTDistances := idx.map (fun p => featureDistance (featT.getD p.1 []) (featT.getD p.2 []))
  let dist := List.zipWith (fun a b => (a - b) ^ 2) featSDistances featTDistances
  let lossPerAtom := scatterMean dist (idx.map (fun p => p.1)) natoms.sum
  let lossPerSystem := scatterMean lossPerAtom (batchVec natoms) natoms.length
  gmean lossPerSystem

/-! ## Teacher checkpoint loading, `load_teacher` -/

/-- Python `first_key.split(".")[1]` (empty when there is no second
component), computed on the character list of the key. -/
def keySecondComponent (k : String) : String :=
  String.mk ((k.toList.splitOn '.').getD 1 [])

/-- Python `k[7:]`: drop the first 7 characters (the `"module."` prefix in
the intended use). -/
def stringDropChars (k : String) (n : ℕ) : String := String.mk (k.toList.drop n)

/-- Embedding of the key adjustment in `DistillForcesTrainer.load_teacher`:
if the trainer is non-distributed (`not distutils.initialized() or noddp`)
and the checkpoint looks distributed (second dotted component of its first
key is `module`), strip 7 characters from every key; if the process group is
initialized and the checkpoint does not look distributed, prepend `module.`
to every key; otherwise keys are used as stored.  (`first_key` is read twice
here instead of being bound to a local.) -/
def adjustCheckpointKeys (initialized noddp : Bool) (ckptKeys : List String) : List String :=
  if (initialized = false ∨ noddp = true)
      ∧ keySecondComponent (ckptKeys.headD ("")) = ("module") then
    ckptKeys.map (fun k => stringDropChars k 7)
  else if initialized = true ∧ ¬ keySecondComponent (ckptKeys.headD ("")) = ("module") then
    ckptKeys.map (fun k => ("module.") ++ k)
  else ckptKeys

/-- `torch.nn.Module.load_state_dict` with `strict=True`, restricted to its
key bookkeeping: loading succeeds exactly when the (ordered) key list of the
loaded dictionary matches the model's, and otherwise raises a state-mismatch
error that propagates to the caller. -/
def loadStateDict (modelKeys loadedKeys : List String) : Except String Unit :=
  if loadedKeys = modelKeys then Except.ok ()
  else Except.error ("Error in loading state_dict: keys mismatch")

/-- `load_teacher` restricted to state-dict key handling: adjust the
checkpoint keys, then strict-load them into the teacher model. -/
def loadTeacher (initialized noddp : Bool) (modelKeys ckptKeys : List String) :
    Except String Unit :=
  loadStateDict modelKeys (adjustCheckpointKeys initialized noddp ckptKeys)

/-! ## Real-valued tensors: 3-vector arithmetic -/

noncomputable section

/-- A per-atom 3-vector (position, force, displacement, gradient row). -/
abbrev Vec3 := ℝ × ℝ × ℝ

def add3 (v w : Vec3) : Vec3 := (v.1 + w.1, v.2.1 + w.2.1, v.2.2 + w.2.2)

def sub3 (v w : Vec3) : Vec3 := (v.1 - w.1, v.2.1 - w.2.1, v.2.2 - w.2.2)

def smul3 (c : ℝ) (v : Vec3) : Vec3 := (c * v.1, c * v.2.1, c * v.2.2)

def dot3 (v w : Vec3) : ℝ := v.1 * w.1 + v.2.1 * w.2.1 + v.2.2 * w.2.2

def normSq3 (v : Vec3) : ℝ := v.1 ^ 2 + v.2.1 ^ 2 + v.2.2 ^ 2

/-- Euclidean norm of a row, `torch.linalg.norm(x, dim=1)` per atom. -/
def norm3 (v : Vec3) : ℝ := Real.sqrt (normSq3 v)

/-- Default epsilon of `torch.nn.functional.normalize`. -/
def epsNormalize : ℝ := 1 / 10 ^ 12

/-- Default epsilon of `torch.nn.functional.cosine_similarity`. -/
def epsCosine : ℝ := 1 / 10 ^ 8

/-- `F.normalize(v, dim=-1)`: the row divided by its norm clamped below by
`eps`. -/
def normalizeV (eps : ℝ) (v : Vec3) : Vec3 := smul3 (1 / max (norm3 v) eps) v

/-- Three-list `zipWith`, for iterating jointly over forces and two noise
draws. -/
def zipWith3 {α β γ δ : Type} (f : α → β → γ → δ) : List α → List β → List γ → List δ
  | a :: as, b :: bs, c :: cs => f a b c :: zipWith3 f as bs cs
  | _, _, _ => []

/-! ## Multi-step PGD adversarial generator, `_adversarial_pgd_batch`,
step policy "ball" -/

/-- One atom's displacement update under `pgd_mode == "ball"`:
`gradient = lr * delta.grad`; rows whose norm exceeds `alpha` are replaced
by `alpha * F.normalize(gradient)`; the result is added to the atom's
delta. -/
def pgdBallUpdate (lr alpha : ℝ) (g : Vec3) : Vec3 :=
  let gradient := smul3 lr g
  if alpha < norm3 gradient then smul3 alpha (normalizeV epsNormalize gradient) else gradient

/-- One inner PGD iteration over one delta tensor in "ball" mode:
`delta_list[j] += gradient` after per-row clipping.  The gradient rows come
from backpropagating the (black-box) adversarial loss into the delta
tensor. -/
def pgdBallStep (lr alpha : ℝ) (delta grads : List Vec3) : List Vec3 :=
  List.zipWith (fun d g => add3 d (pgdBallUpdate lr alpha g)) delta grads

/-! ## Single-step adversarial generator, `_adversarial_batch` -/

/-- Default Adam hyperparameters of `torch.optim.Adam` (`betas=(0.9, 0.999)`,
`eps=1e-8`), which `_adversarial_batch` leaves at their defaults. -/
def adamBeta1 : ℝ := 9 / 10

def adamBeta2 : ℝ := 999 / 1000

def epsAdam : ℝ := 1 / 10 ^ 8

/-- One Adam update of a single scalar parameter with gradient `g` at step
`t ≥ 1`: exponential moving averages, bias correction, and the parameter
step `theta - lr * mHat / (sqrt vHat + eps)`. -/
def adamCoordStep (lr : ℝ) (t : ℕ) (theta m v g : ℝ) : ℝ × ℝ × ℝ :=
  let mNew := adamBeta1 * m + (1 - adamBeta1) * g
  let vNew := adamBeta2 * v + (1 - adamBeta2) * g ^ 2
  let mHat := mNew / (1 - adamBeta1 ^ t)
  let vHat := vNew / (1 - adamBeta2 ^ t)
  (theta - lr * mHat / (Real.sqrt vHat + epsAdam), mNew, vNew)

/-- Optimizer state of one atom's displacement row: parameter value and the
two Adam moment rows. -/
abbrev AdamCell := Vec3 × Vec3 × Vec3

def adamVecStep (lr : ℝ) (t : ℕ) (c : AdamCell) (g : Vec3) : AdamCell :=
  let rx := adamCoordStep lr t c.1.1 c.2.1.1 c.2.2.1 g.1
  let ry := adamCoordStep lr t c.1.2.1 c.2.1.2.1 c.2.2.2.1 g.2.1
  let rz := adamCoordStep lr t c.1.2.2 c.2.1.2.2 c.2.2.2.2 g.2.2
  ((rx.1, ry.1, rz.1), (rx.2.1, ry.2.1, rz.2.1), (rx.2.2, ry.2.2, rz.2.2))

/-- One `opt.step()` over the whole `delta_list` (one state row per atom per
sub-batch). -/
def adamListStep (lr : ℝ) (t : ℕ) (s : List (List AdamCell)) (g : List (List Vec3)) :
    List (List AdamCell) :=
  List.zipWith (fun cells gs => List.zipWith (adamVecStep lr t) cells gs) s g

/-- Modelled from the spec: the `AddNoise` transform lives in
`ocpmodels/common/transforms.py`, which is not part of this repository
slice; the spec's data model says the delta field is "used additively to
perturb a batch", so the transform adds the displacement to the positions. -/
def addNoise (pos delta : List Vec3) : List Vec3 := List.zipWith add3 pos delta

/-- Parameter (displacement) component of the optimizer state. -/
def thetaOf (s : List (List AdamCell)) : List (List Vec3) :=
  s.map (fun cs => cs.map (fun c => c.1))

/-- Embedding of `DistillForcesTrainer._adversarial_batch`.  The delta list
starts as `N(0, sd)` noise when `adversarial_init_sd > 0` (the draw is
`sd * z` for the unit-normal oracle `z`) and as zeros otherwise; each of the
`n_adversarial_steps` iterations backpropagates the black-box distillation
loss (the per-iteration gradients are the oracle `gradOracle`) and performs
one Adam step on every delta tensor; `return_batch` is rebound inside the
loop body only, so with zero configured iterations the final
`return [batch.detach() ...]` reads an unbound local — modelled as `none`.
Otherwise the result re-applies the final displacement to the input
positions. -/
def adversarialBatch (lr sd : ℝ) (nSteps : ℕ) (batchList : List (List Vec3))
    (initNoise : List (List Vec3)) (gradOracle : ℕ → List (List Vec3)) :
    Option (List (List Vec3)) :=
  let delta0 : List (List Vec3) :=
    if 0 < sd then
      List.zipWith (fun pos noise => List.zipWith (fun _ z => smul3 sd z) pos noise)
        batchList initNoise
    else batchList.map (fun pos => pos.map (fun _ => ((0 : ℝ), 0, 0)))
  let s0 : List (List AdamCell) :=
    delta0.map (fun ds => ds.map (fun d => (d, ((0 : ℝ), 0, 0), ((0 : ℝ), 0, 0))))
  let sFinal := (List.range nSteps).foldl (fun s i => adamListStep lr (i + 1) s (gradOracle i)) s0
  if nSteps = 0 then none
  else
    some (List.zipWith (fun pos cells => addNoise pos (cells.map (fun c => c.1)))
      batchList sFinal)

/-! ## Random jitter generator, `_random_jitter_batch` -/

/-- `vector_projection(vec1, vec2)` from the module top level: project
`vec1` onto the `F.normalize`-d direction of `vec2`. -/
def vectorProjection (v f : Vec3) : Vec3 :=
  let fn := normalizeV epsNormalize f
  smul3 (dot3 v fn) fn

/-- One atom's displacement in `_random_jitter_batch`: a Gaussian draw
`N(0, std)` (realised as `std * z` for the unit-normal oracle `z`),
post-processed by the configured `random_mode` — `force_proj` removes the
component along the ground-truth force, `proj_on_force` keeps only that
component, `sample_from_force` replaces the draw with
`torch.normal(force, std) = force + std * zf` — and finally rescaled to
`random_fixed_length * F.normalize(displacement)` when a fixed length is
configured. -/
def randomJitterDelta (std : ℝ) (mode : String) (fixedLength : Option ℝ)
    (force z zf : Vec3) : Vec3 :=
  let d0 := smul3 std z
  let d1 := if mode = ("force_proj") then sub3 d0 (vectorProjection d0 force) else d0
  let d2 := if mode = ("proj_on_force") then vectorProjection d1 force else d1
  let d3 := if mode = ("sample_from_force") then add3 force (smul3 std zf) else d2
  match fixedLength with
  | some len => smul3 len (normalizeV epsNormalize d3)
  | none => d3

/-- `_random_jitter_batch` on one sub-batch: build the per-atom delta list
and apply the additive transform to the positions. -/
def randomJitterBatch (std : ℝ) (mode : String) (fixedLength : Option ℝ)
    (pos force z zf : List Vec3) : List Vec3 :=
  addNoise pos (zipWith3 (randomJitterDelta std mode fixedLength) force z zf)

/-! ## Vector-to-vector geometric loss, `_vec2vec_geometric`

A vector feature tensor has shape (atoms, 3, channels); it is modelled as a
list (atoms) of lists (channels) of 3-vectors, so `dim=1` reductions of the
source act on the `Vec3` component. -/

/-- `F.cosine_similarity(x, y, 1)` on one atom/channel pair of 3-vectors:
the dot product over the clamped product of norms. -/
def cosineSim (x y : Vec3) : ℝ := dot3 x y / max (norm3 x * norm3 y) epsCosine

/-- Direction term: `1 - cosine_similarity` averaged over channels
(`torch.mean(dir_loss, dim=1)`), scatter-averaged per system, then averaged
over systems. -/
def v2vDirLoss (featS featT : List (List Vec3)) (natoms : List ℕ) : ℝ :=
  let perAtom := List.zipWith
    (fun sa ta => gmean (List.zipWith (fun sc tc => 1 - cosineSim sc tc) sa ta)) featS featT
  gmean (scatterMean perAtom (batchVec natoms) natoms.length)

/-- Magnitude term: `F.l1_loss` of the per-channel norms averaged over
channels, scatter-averaged per system, then averaged over systems. -/
def v2vNormLoss (featS featT : List (List Vec3)) (natoms : List ℕ) : ℝ :=
  let perAtom := List.zipWith
    (fun sa ta => gmean (List.zipWith (fun sc tc => |norm3 sc - norm3 tc|) sa ta)) featS featT
  gmean (scatterMean perAtom (batchVec natoms) natoms.length)

/-- `_vec2vec_geometric`: interpolation of the magnitude and direction
terms by `v2v_geom_lambda`. -/
def v2vGeometric (lam : ℝ) (featS featT : List (List Vec3)) (natoms : List ℕ) : ℝ :=
  (1 - lam) * v2vNormLoss featS featT natoms + lam * v2vDirLoss featS featT natoms

/-! ## Supervised loss with in-place weighting, `_compute_loss` -/

/-- The mutable output dictionary of one forward pass, restricted to the
entries `_compute_loss` rebinds: per-system energies and per-atom forces. -/
structure OutDict where
  energy : List ℝ
  forces : List Vec3

/-- Embedding of `DistillForcesTrainer._compute_loss` on the default
configuration path (`teacher_output=None` targets from the batch,
`normalize_labels=False`, `tag_specific_weights=[]`,
`train_on_free_atoms=False`, `regress_forces=True`).  The provenance
weights come from `_loss_weights_d1M` (whose assert propagates); the two
booleans are the `self.loss_fn["energy"] == "mse"` and
`self.loss_fn["force"] == "mse"` tests — note the source applies the energy
test to the per-node weights and the force test to the per-sample weights.
`out["energy"] *= weight_per_sample` and
`out["forces"] *= weight_per_node[:, None]` rebind the dictionary entries,
so the returned dictionary holds the scaled predictions; the scalar losses
themselves are computed by the black-box loss functions of the base
trainer. -/
def computeLoss (energyLossIsMse forceLossIsMse : Bool) (rho : Option ℚ) (b : BatchMeta)
    (lossFnEnergy : List ℝ → List ℝ → ℝ) (lossFnForce : List Vec3 → List Vec3 → ℝ)
    (energyCoeff forceCoeff : ℝ) (out : OutDict)
    (energyTarget : List ℝ) (forceTarget : List Vec3) : Except String (ℝ × OutDict) :=
  match lossWeightsD1M rho b with
  | Except.error e => Except.error e
  | Except.ok w =>
      let weightPerNodeR := w.1.map (fun q => (q : ℝ))
      let weightPerSampleR := w.2.map (fun q => (q : ℝ))
      let weightPerNode :=
        if energyLossIsMse then weightPerNodeR.map Real.sqrt else weightPerNodeR
      let weightPerSample :=
        if forceLossIsMse then weightPerSampleR.map Real.sqrt else weightPerSampleR
      let outEnergy := List.zipWith (fun e wi => e * wi) out.energy weightPerSample
      let energyTargetW := List.zipWith (fun e wi => e * wi) energyTarget weightPerSample
      let lossEnergy := energyCoeff * lossFnEnergy outEnergy energyTargetW
      let outForces := List.zipWith (fun f wi => smul3 wi f) out.forces weightPerNode
      let forceTargetW := List.zipWith (fun f wi => smul3 wi f) forceTarget weightPerNode
      let lossForce := forceCoeff * lossFnForce outForces forceTargetW
      Except.ok (lossEnergy + lossForce, { energy := outEnergy, forces := outForces })

/-- The dictionary that `_compute_metrics` sees in the same training step:
`train` passes the same `out_batch["out"]` object to `_compute_loss` and
then to `_compute_metrics`, so the metrics input is the dictionary as left
behind by the loss computation. -/
def trainStepMetricsInput (energyLossIsMse forceLossIsMse : Bool) (rho : Option ℚ)
    (b : BatchMeta) (lossFnEnergy : List ℝ → List ℝ → ℝ)
    (lossFnForce : List Vec3 → List Vec3 → ℝ) (energyCoeff forceCoeff : ℝ)
    (out : OutDict) (energyTarget : List ℝ) (forceTarget : List Vec3) :
    Except String OutDict :=
  (computeLoss energyLossIsMse forceLossIsMse rho b lossFnEnergy lossFnForce
    energyCoeff forceCoeff out energyTarget forceTarget).map (fun p => p.2)

end

/-! ## Lemmas and theorems -/

lemma gmean_of_zeros {α : Type} [DivisionRing α] (l : List α) (h : ∀ x ∈ l, x = 0) :
    gmean l = 0 := by
  unfold gmean
  rw [List.sum_eq_zero h, zero_div]

lemma scatterMean_of_zeros {α : Type} [DivisionRing α] (vals : List α) (idx : List ℕ)
    (size : ℕ) (h : ∀ x ∈ vals, x = 0) : ∀ y ∈ scatterMean vals idx size, y = 0 := by
  intro y hy
  unfold scatterMean at hy
  obtain ⟨k, -, rfl⟩ := List.mem_map.1 hy
  apply gmean_of_zeros
  intro x hx
  obtain ⟨⟨v, i⟩, hvi, rfl⟩ := List.mem_map.1 hx
  exact h _ (List.of_mem_zip (List.mem_of_mem_filter hvi)).1

lemma zipWith_sub_sq_self {α : Type} [CommRing α] (l : List α) :
    ∀ x ∈ List.zipWith (fun a b => (a - b) ^ 2) l l, x = 0 := by
  induction l with
  | nil => intro x hx; cases hx
  | cons a t ih =>
      intro x hx
      rw [List.zipWith_cons_cons] at hx
      rcases List.mem_cons.1 hx with h | h
      · rw [h]
        simp
      · exact ih _ h

lemma zipWith_getD {α β γ : Type} (f : α → β → γ) :
    ∀ (l1 : List α) (l2 : List β) (i : ℕ), i < l1.length → i < l2.length →
      ∀ (d1 : α) (d2 : β) (d3 : γ),
        (List.zipWith f l1 l2).getD i d3 = f (l1.getD i d1) (l2.getD i d2) := by
  intro l1
  induction l1 with
  | nil =>
      intro l2 i h1
      cases h1
  | cons a t ih =>
      intro l2 i h1 h2 d1 d2 d3
      cases l2 with
      | nil => cases h2
      | cons b t2 =>
          cases i with
          | zero => rfl
          | succ n =>
              rw [List.zipWith_cons_cons, List.getD_cons_succ, List.getD_cons_succ,
                List.getD_cons_succ]
              exact ih t2 n (Nat.lt_of_succ_lt_succ h1) (Nat.lt_of_succ_lt_succ h2) d1 d2 d3

lemma norm3_nonneg (v : Vec3) : 0 ≤ norm3 v := Real.sqrt_nonneg _

lemma norm3_smul (c : ℝ) (v : Vec3) : norm3 (smul3 c v) = |c| * norm3 v := by
  unfold norm3 smul3 normSq3
  rw [show (c * v.1) ^ 2 + (c * v.2.1) ^ 2 + (c * v.2.2) ^ 2
      = c ^ 2 * (v.1 ^ 2 + v.2.1 ^ 2 + v.2.2 ^ 2) from by ring]
  rw [Real.sqrt_mul (sq_nonneg c), Real.sqrt_sq_eq_abs]

lemma epsNormalize_pos : 0 < epsNormalize := by
  unfold epsNormalize
  norm_num

/-- Helper: a clipped row lands exactly on the radius. -/
lemma pgdBallUpdate_norm_of_exceeds (lr alpha : ℝ) (g : Vec3)
    (heps : epsNormalize ≤ alpha) (h : alpha < norm3 (smul3 lr g)) :
    norm3 (pgdBallUpdate lr alpha g) = alpha := by
  have halpha : 0 < alpha := lt_of_lt_of_le epsNormalize_pos heps
  have hn0 : 0 < norm3 (smul3 lr g) := halpha.trans h
  simp only [pgdBallUpdate]
  rw [if_pos h]
  unfold normalizeV
  rw [max_eq_left (heps.trans h.le), norm3_smul, norm3_smul,
    abs_of_pos halpha, abs_of_pos (by positivity : (0 : ℝ) < 1 / norm3 (smul3 lr g))]
  field_simp

lemma sum_indicator_eq_countP (l : List ℤ) (p : ℤ → Bool) :
    ((l.map (fun s => if p s then (1 : ℚ) else 0)).sum) = ((l.countP p : ℕ) : ℚ) := by
  induction l with
  | nil => simp
  | cons a t ih =>
      rw [List.map_cons, List.sum_cons, ih, List.countP_cons]
      push_cast
      ring

lemma batchRatio_eq_synthFraction (sids : List ℤ) :
    gmean ((sids.map (fun s => decide (synthThreshold < s))).map
      (fun m => if m then (1 : ℚ) else 0)) = synthFraction sids := by
  unfold gmean synthFraction
  rw [List.map_map]
  rw [show ((fun m => if m then (1 : ℚ) else 0) ∘ fun s => decide (synthThreshold < s))
      = (fun s => if decide (synthThreshold < s) then (1 : ℚ) else 0) from rfl]
  rw [sum_indicator_eq_countP sids (fun s => decide (synthThreshold < s))]
  simp

/-- Helper: the code's per-node weight selector agrees with the spec-side
lookup of the owning system's id, for every index (in or out of range). -/
lemma perNode_select_eq (rho : ℚ) (sids : List ℤ) (wDft : ℚ) (i : ℕ)
    (hw : wDft = wRealSpec rho sids) :
    (if (sids.map (fun s => decide (synthThreshold < s))).getD i false
      then rho * wDft else wDft) = wSysSpec rho sids (sids.getD i 0) := by
  subst hw
  unfold wSysSpec
  rcases lt_or_ge i sids.length with hlt | hge
  · rw [List.getD_eq_getElem?_getD, List.getD_eq_getElem?_getD,
      List.getElem?_map, List.getElem?_eq_getElem hlt]
    simp
  · rw [List.getD_eq_getElem?_getD, List.getD_eq_getElem?_getD,
      List.getElem?_map, List.getElem?_eq_none (by simpa using hge)]
    simp [synthThreshold]

/-- Helper: for a positive configured ratio the code computes exactly the
spec-side weight vectors. -/
lemma lossWeights_eq_spec (rho : ℚ) (b : BatchMeta) (hrho : 0 < rho) :
    lossWeightsD1M (some rho) b = Except.ok (specPerNode rho b, specPerSample rho b) := by
  simp only [lossWeightsD1M]
  rw [if_pos hrho, batchRatio_eq_synthFraction b.sids]
  refine congrArg Except.ok (Prod.ext ?_ ?_)
  · unfold specPerNode
    apply List.map_congr_left
    intro i _
    exact perNode_select_eq rho b.sids _ i rfl
  · unfold specPerSample
    rw [List.map_map]
    apply List.map_congr_left
    intro s _
    simp only [Function.comp_apply]
    unfold wSysSpec wRealSpec
    by_cases h : synthThreshold < s
    · simp [h]
    · simp [h]

/-- C1: with a configured ratio `rho > 0` the loss weighting policy computes
`r` as the fraction of systems whose id exceeds 4,999,999, gives every real
system weight `1 / (1 - r + rho*r)` and every synthetic system `rho` times
that, broadcasts per-system weights to per-atom weights via system
membership (for two systems with 3 and 5 atoms this is an 8-length vector
with 3 copies of system 1's weight followed by 5 copies of system 2's
weight), and with no configured ratio it returns all-ones per-atom and
per-system vectors. -/
theorem c1_loss_weighting :
    (∀ (rho : ℚ) (b : BatchMeta), 0 < rho →
      lossWeightsD1M (some rho) b = Except.ok (specPerNode rho b, specPerSample rho b))
    ∧ (∀ b : BatchMeta,
      lossWeightsD1M none b
        = Except.ok (List.replicate b.natoms.sum (1 : ℚ),
            List.replicate b.sids.length (1 : ℚ)))
    ∧ (∀ (rho : ℚ) (s1 s2 : ℤ), 0 < rho →
      lossWeightsD1M (some rho) ⟨[s1, s2], [3, 5]⟩
        = Except.ok
            (List.replicate 3 (wSysSpec rho [s1, s2] s1)
              ++ List.replicate 5 (wSysSpec rho [s1, s2] s2),
             [wSysSpec rho [s1, s2] s1, wSysSpec rho [s1, s2] s2])) := by
  refine ⟨fun rho b h => lossWeights_eq_spec rho b h, fun b => rfl, ?_⟩
  intro rho s1 s2 h
  rw [lossWeights_eq_spec rho ⟨[s1, s2], [3, 5]⟩ h]
  simp [specPerNode, specPerSample, batchVec, List.getD_cons_zero, List.getD_cons_succ,
    List.replicate_succ]

/-- Witness for C1 at `rho = 2` on a batch with one real and one synthetic
system with 3 and 5 atoms; the final conjunct evaluates the weights to the
concrete values `2/3` (real) and `4/3` (synthetic). -/
theorem c1_loss_weighting_witness :
    (0 : ℚ) < 2
    ∧ lossWeightsD1M (some 2) ⟨[0, 5000000], [3, 5]⟩
        = Except.ok (specPerNode 2 ⟨[0, 5000000], [3, 5]⟩,
            specPerSample 2 ⟨[0, 5000000], [3, 5]⟩)
    ∧ specPerSample 2 ⟨[0, 5000000], [3, 5]⟩ = [2 / 3, 4 / 3] :=
  ⟨by norm_num, c1_loss_weighting.1 2 ⟨[0, 5000000], [3, 5]⟩ (by norm_num),
    by norm_num [specPerSample, wSysSpec, wRealSpec, synthFraction, synthThreshold,
      List.countP_cons, List.countP_nil]⟩

/-- C2: the starting epoch after resume is the persisted step counter
integer-divided by the loader length, and the steps skipped in the first
resumed epoch are the persisted step modulo the loader length; for step 150
and loader length 100 this gives epoch 1 and 50 skipped steps.  The final
conjunct records the consistency property behind this recomputation: the
epoch/offset pair reconstructs exactly the persisted step. -/
theorem c2_resume_from_step :
    (∀ step loaderLen : ℕ,
      resumeStartEpoch step loaderLen = step / loaderLen
        ∧ resumeSkipSteps step loaderLen = step % loaderLen)
    ∧ resumeStartEpoch 150 100 = 1
    ∧ resumeSkipSteps 150 100 = 50
    ∧ (∀ step loaderLen : ℕ,
      loaderLen * resumeStartEpoch step loaderLen + resumeSkipSteps step loaderLen = step) := by
  refine ⟨fun s n => ⟨rfl, rfl⟩, by decide, by decide, fun s n => Nat.div_add_mod s n⟩

/-- C3: in "ball" mode, for every atom with nonzero gradient the
displacement update added to its delta has norm at most the configured
radius `alpha`; a row whose scaled-gradient norm exceeds the radius is
rescaled to lie exactly on the radius, and every other row is left
unchanged.  The last conjunct ties the per-row update to the per-tensor
loop `delta_list[j] += gradient`.  (The hypothesis `epsNormalize ≤ alpha`
reflects that the configured radius dominates the `F.normalize` clamping
epsilon `1e-12`.) -/
theorem c3_pgd_ball_step_bounded :
    ∀ (lr alpha : ℝ) (g : Vec3), epsNormalize ≤ alpha → g ≠ ((0 : ℝ), 0, 0) →
      norm3 (pgdBallUpdate lr alpha g) ≤ alpha
        ∧ (alpha < norm3 (smul3 lr g) → norm3 (pgdBallUpdate lr alpha g) = alpha)
        ∧ (norm3 (smul3 lr g) ≤ alpha → pgdBallUpdate lr alpha g = smul3 lr g)
        ∧ (∀ (delta grads : List Vec3) (i : ℕ), i < delta.length → i < grads.length →
            (pgdBallStep lr alpha delta grads).getD i ((0 : ℝ), 0, 0)
              = add3 (delta.getD i ((0 : ℝ), 0, 0))
                  (pgdBallUpdate lr alpha (grads.getD i ((0 : ℝ), 0, 0)))) := by
  intro lr alpha g heps _hg
  refine ⟨?_, fun h => pgdBallUpdate_norm_of_exceeds lr alpha g heps h, ?_, ?_⟩
  · by_cases h : alpha < norm3 (smul3 lr g)
    · exact le_of_eq (pgdBallUpdate_norm_of_exceeds lr alpha g heps h)
    · simp only [pgdBallUpdate]
      rw [if_neg h]
      exact not_lt.1 h
  · intro h
    simp only [pgdBallUpdate]
    rw [if_neg (not_lt.2 h)]
  · intro delta grads i hd hgr
    unfold pgdBallStep
    exact zipWith_getD _ delta grads i hd hgr ((0 : ℝ), 0, 0) ((0 : ℝ), 0, 0) ((0 : ℝ), 0, 0)

/-- Witness for C3 at radius 1, learning rate 1 and the gradient row
`(3, 4, 0)` of norm 5, which gets clipped onto the radius. -/
theorem c3_pgd_ball_step_bounded_witness :
    epsNormalize ≤ (1 : ℝ)
    ∧ (((3 : ℝ), 4, 0) : Vec3) ≠ ((0 : ℝ), 0, 0)
    ∧ (norm3 (pgdBallUpdate 1 1 (((3 : ℝ), 4, 0) : Vec3)) ≤ 1
        ∧ (1 < norm3 (smul3 1 (((3 : ℝ), 4, 0) : Vec3)) →
            norm3 (pgdBallUpdate 1 1 (((3 : ℝ), 4, 0) : Vec3)) = 1)
        ∧ (norm3 (smul3 1 (((3 : ℝ), 4, 0) : Vec3)) ≤ 1 →
            pgdBallUpdate 1 1 (((3 : ℝ), 4, 0) : Vec3) = smul3 1 (((3 : ℝ), 4, 0) : Vec3))
        ∧ (∀ (delta grads : List Vec3) (i : ℕ), i < delta.length → i < grads.length →
            (pgdBallStep 1 1 delta grads).getD i ((0 : ℝ), 0, 0)
              = add3 (delta.getD i ((0 : ℝ), 0, 0))
                  (pgdBallUpdate 1 1 (grads.getD i ((0 : ℝ), 0, 0))))) :=
  ⟨by norm_num [epsNormalize], by norm_num [Prod.ext_iff],
    c3_pgd_ball_step_bounded 1 1 (((3 : ℝ), 4, 0) : Vec3)
      (by norm_num [epsNormalize]) (by norm_num [Prod.ext_iff])⟩

lemma smul3_zero_coeff (v : Vec3) : smul3 0 v = ((0 : ℝ), 0, 0) := by
  unfold smul3
  simp

lemma smul3_zero_vec (c : ℝ) : smul3 c ((0 : ℝ), 0, 0) = ((0 : ℝ), 0, 0) := by
  unfold smul3
  simp

lemma add3_zero_right (v : Vec3) : add3 v ((0 : ℝ), 0, 0) = v := by
  unfold add3
  simp

lemma sub3_add3_cancel (p d : Vec3) : sub3 (add3 p d) p = d := by
  unfold sub3 add3
  simp

lemma normalizeV_zero_vec (eps : ℝ) : normalizeV eps ((0 : ℝ), 0, 0) = ((0 : ℝ), 0, 0) := by
  unfold normalizeV
  exact smul3_zero_vec _

lemma vectorProjection_zero_left (f : Vec3) :
    vectorProjection ((0 : ℝ), 0, 0) f = ((0 : ℝ), 0, 0) := by
  simp only [vectorProjection]
  rw [show dot3 ((0 : ℝ), 0, 0) (normalizeV epsNormalize f) = 0 from by unfold dot3; ring]
  exact smul3_zero_coeff _

lemma zipWith3_length {α β γ δ : Type} (f : α → β → γ → δ) :
    ∀ (as : List α) (bs : List β) (cs : List γ),
      (zipWith3 f as bs cs).length = min as.length (min bs.length cs.length) := by
  intro as
  induction as with
  | nil => intro bs cs; simp [zipWith3]
  | cons a t ih =>
      intro bs cs
      cases bs with
      | nil => simp [zipWith3]
      | cons b tb =>
          cases cs with
          | nil => simp [zipWith3]
          | cons c tc =>
              rw [show zipWith3 f (a :: t) (b :: tb) (c :: tc)
                  = f a b c :: zipWith3 f t tb tc from rfl]
              simp only [List.length_cons, ih tb tc]
              omega

lemma zipWith3_mem_of_const {α β γ δ : Type} (f : α → β → γ → δ) (v0 : δ)
    (h : ∀ a b c, f a b c = v0) :
    ∀ (as : List α) (bs : List β) (cs : List γ), ∀ x ∈ zipWith3 f as bs cs, x = v0 := by
  intro as
  induction as with
  | nil => intro bs cs x hx; cases hx
  | cons a t ih =>
      intro bs cs x hx
      cases bs with
      | nil => cases hx
      | cons b tb =>
          cases cs with
          | nil => cases hx
          | cons c tc =>
              rw [show zipWith3 f (a :: t) (b :: tb) (c :: tc)
                  = f a b c :: zipWith3 f t tb tc from rfl] at hx
              rcases List.mem_cons.1 hx with h1 | h1
              · rw [h1]
                exact h a b c
              · exact ih tb tc x h1

lemma zipWith3_getD {α β γ δ : Type} (f : α → β → γ → δ) :
    ∀ (as : List α) (bs : List β) (cs : List γ) (i : ℕ),
      i < as.length → i < bs.length → i < cs.length →
      ∀ (dA : α) (dB : β) (dC : γ) (dD : δ),
        (zipWith3 f as bs cs).getD i dD = f (as.getD i dA) (bs.getD i dB) (cs.getD i dC) := by
  intro as
  induction as with
  | nil => intro bs cs i h1; cases h1
  | cons a t ih =>
      intro bs cs i h1 h2 h3 dA dB dC dD
      cases bs with
      | nil => cases h2
      | cons b tb =>
          cases cs with
          | nil => cases h3
          | cons c tc =>
              rw [show zipWith3 f (a :: t) (b :: tb) (c :: tc)
                  = f a b c :: zipWith3 f t tb tc from rfl]
              cases i with
              | zero => rfl
              | succ n =>
                  rw [List.getD_cons_succ, List.getD_cons_succ, List.getD_cons_succ,
                    List.getD_cons_succ]
                  exact ih tb tc n (Nat.lt_of_succ_lt_succ h1) (Nat.lt_of_succ_lt_succ h2)
                    (Nat.lt_of_succ_lt_succ h3) dA dB dC dD

lemma zipWith3_congr {α β γ δ : Type} (f g : α → β → γ → δ)
    (h : ∀ a b c, f a b c = g a b c) :
    ∀ (as : List α) (bs : List β) (cs : List γ), zipWith3 f as bs cs = zipWith3 g as bs cs := by
  intro as
  induction as with
  | nil => intro bs cs; rfl
  | cons a t ih =>
      intro bs cs
      cases bs with
      | nil => rfl
      | cons b tb =>
          cases cs with
          | nil => rfl
          | cons c tc =>
              rw [show zipWith3 f (a :: t) (b :: tb) (c :: tc)
                  = f a b c :: zipWith3 f t tb tc from rfl]
              rw [show zipWith3 g (a :: t) (b :: tb) (c :: tc)
                  = g a b c :: zipWith3 g t tb tc from rfl]
              rw [h a b c, ih tb tc]

lemma zipWith3_fst {α β γ : Type} :
    ∀ (as : List α) (bs : List β) (cs : List γ), as.length ≤ bs.length →
      as.length ≤ cs.length → zipWith3 (fun a _ _ => a) as bs cs = as := by
  intro as
  induction as with
  | nil => intro bs cs _ _; rfl
  | cons a t ih =>
      intro bs cs hb hc
      cases bs with
      | nil => exact absurd hb (by simp)
      | cons b tb =>
          cases cs with
          | nil => exact absurd hc (by simp)
          | cons c tc =>
              rw [show zipWith3 (fun (a : α) (_ : β) (_ : γ) => a) (a :: t) (b :: tb) (c :: tc)
                  = a :: zipWith3 (fun (a : α) (_ : β) (_ : γ) => a) t tb tc from rfl]
              rw [ih tb tc (Nat.le_of_succ_le_succ hb) (Nat.le_of_succ_le_succ hc)]

lemma addNoise_zero_of_lengths :
    ∀ (pos delta : List Vec3), (∀ d ∈ delta, d = ((0 : ℝ), 0, 0)) →
      pos.length ≤ delta.length → addNoise pos delta = pos := by
  intro pos
  induction pos with
  | nil => intro delta _ _; rfl
  | cons p pt ih =>
      intro delta hz hlen
      cases delta with
      | nil => exact absurd hlen (by simp)
      | cons d dt =>
          unfold addNoise
          rw [List.zipWith_cons_cons, hz d (List.mem_cons_self d dt), add3_zero_right]
          have := ih dt (fun x hx => hz x (List.mem_cons_of_mem _ hx))
            (Nat.le_of_succ_le_succ hlen)
          unfold addNoise at this
          rw [this]

/-- Helper: with standard deviation 0 and a mode other than
`sample_from_force`, a single atom's jitter displacement is exactly zero,
with or without fixed-length rescaling. -/
lemma randomJitterDelta_std_zero (mode : String) (fixedLength : Option ℝ)
    (force z zf : Vec3) (hm : mode ≠ ("sample_from_force")) :
    randomJitterDelta 0 mode fixedLength force z zf = ((0 : ℝ), 0, 0) := by
  have hd1 : (if mode = ("force_proj")
      then sub3 (smul3 0 z) (vectorProjection (smul3 0 z) force) else smul3 0 z)
      = ((0 : ℝ), 0, 0) := by
    rw [smul3_zero_coeff]
    by_cases h : mode = ("force_proj")
    · rw [if_pos h, vectorProjection_zero_left]
      unfold sub3
      simp
    · rw [if_neg h]
  have hd2 : (if mode = ("proj_on_force")
      then vectorProjection (if mode = ("force_proj")
        then sub3 (smul3 0 z) (vectorProjection (smul3 0 z) force) else smul3 0 z) force
      else (if mode = ("force_proj")
        then sub3 (smul3 0 z) (vectorProjection (smul3 0 z) force) else smul3 0 z))
      = ((0 : ℝ), 0, 0) := by
    rw [hd1]
    by_cases h : mode = ("proj_on_force")
    · rw [if_pos h, vectorProjection_zero_left]
    · rw [if_neg h]
  simp only [randomJitterDelta]
  rw [if_neg hm, hd2]
  cases fixedLength with
  | none => rfl
  | some len =>
      rw [normalizeV_zero_vec]
      exact smul3_zero_vec len

/-- Helper: with mode `sample_from_force` and no rescaling the displacement
is `force + std * zf`. -/
lemma randomJitterDelta_sample_none (std : ℝ) (mode : String) (force z zf : Vec3)
    (hm : mode = ("sample_from_force")) :
    randomJitterDelta std mode none force z zf = add3 force (smul3 std zf) := by
  simp only [randomJitterDelta]
  rw [if_pos hm]

/-- Helper: with mode `sample_from_force` and fixed-length rescaling the
displacement is the rescaled normalized draw. -/
lemma randomJitterDelta_sample_some (std : ℝ) (mode : String) (len : ℝ)
    (force z zf : Vec3) (hm : mode = ("sample_from_force")) :
    randomJitterDelta std mode (some len) force z zf
      = smul3 len (normalizeV epsNormalize (add3 force (smul3 std zf))) := by
  simp only [randomJitterDelta]
  rw [if_pos hm]

/-- Helper: rescaling a vector of norm at least the normalize epsilon to a
fixed nonnegative length yields exactly that length. -/
lemma norm3_fixed_rescale (len : ℝ) (hlen : 0 ≤ len) (f : Vec3)
    (hf : epsNormalize ≤ norm3 f) :
    norm3 (smul3 len (normalizeV epsNormalize f)) = len := by
  have hfpos : 0 < norm3 f := lt_of_lt_of_le epsNormalize_pos hf
  unfold normalizeV
  rw [norm3_smul, norm3_smul, max_eq_left hf, abs_of_nonneg hlen,
    abs_of_pos (by positivity : (0 : ℝ) < 1 / norm3 f)]
  field_simp

/-- C6 counterexample: with standard deviation 0, mode `sample_from_force`
and no fixed-length rescaling, the jittered positions are the positions
shifted by the ground-truth force — `torch.normal(force, 0)` is the force
itself — so a one-atom batch at the origin with force `(1, 0, 0)` moves,
contradicting the claim that positions are left unchanged in every mode
when no fixed length is requested. -/
theorem c6_counterexample :
    randomJitterBatch 0 ("sample_from_force") none
        [((0 : ℝ), 0, 0)] [((1 : ℝ), 0, 0)] [((0 : ℝ), 0, 0)] [((0 : ℝ), 0, 0)]
      ≠ [((0 : ℝ), 0, 0)] := by
  have hval : randomJitterBatch 0 ("sample_from_force") none
      [((0 : ℝ), 0, 0)] [((1 : ℝ), 0, 0)] [((0 : ℝ), 0, 0)] [((0 : ℝ), 0, 0)]
      = [((1 : ℝ), 0, 0)] := by
    unfold randomJitterBatch addNoise
    rw [show zipWith3 (randomJitterDelta 0 ("sample_from_force") none)
        [((1 : ℝ), 0, 0)] [((0 : ℝ), 0, 0)] [((0 : ℝ), 0, 0)]
        = [randomJitterDelta 0 ("sample_from_force") none
            ((1 : ℝ), 0, 0) ((0 : ℝ), 0, 0) ((0 : ℝ), 0, 0)] from rfl]
    rw [randomJitterDelta_sample_none 0 ("sample_from_force")
      ((1 : ℝ), 0, 0) ((0 : ℝ), 0, 0) ((0 : ℝ), 0, 0) rfl]
    rw [smul3_zero_coeff, add3_zero_right]
    rw [List.zipWith_cons_cons]
    rw [show add3 ((0 : ℝ), 0, 0) ((1 : ℝ), 0, 0) = ((1 : ℝ), 0, 0) from by unfold add3; simp]
    rfl
  rw [hval]
  intro h
  have := List.head_eq_of_cons_eq h
  rw [Prod.ext_iff] at this
  exact one_ne_zero this.1

/-- C6 (amended): with standard deviation 0 the random jitter leaves the
positions exactly unchanged in the no-mode, `force_proj` and
`proj_on_force` modes — including when fixed-length rescaling is requested,
because normalizing the exactly-zero displacement yields zero again rather
than a unit direction; in `sample_from_force` mode the displacement equals
the ground-truth force (positions shift by the force), and under
fixed-length rescaling its magnitude equals the configured fixed length
whenever the force norm is at least the normalization epsilon. -/
theorem c6_random_jitter_degenerate :
    ∀ (mode : String) (fixedLength : Option ℝ) (pos force z zf : List Vec3),
      force.length = pos.length → z.length = pos.length → zf.length = pos.length →
      (mode ≠ ("sample_from_force") →
          randomJitterBatch 0 mode fixedLength pos force z zf = pos)
        ∧ (mode = ("sample_from_force") →
            randomJitterBatch 0 mode none pos force z zf = List.zipWith add3 pos force)
        ∧ (mode = ("sample_from_force") → ∀ len : ℝ, 0 ≤ len →
            ∀ i, i < pos.length → epsNormalize ≤ norm3 (force.getD i ((0 : ℝ), 0, 0)) →
              norm3 (sub3
                  ((randomJitterBatch 0 mode (some len) pos force z zf).getD i ((0 : ℝ), 0, 0))
                  (pos.getD i ((0 : ℝ), 0, 0))) = len) := by
  intro mode fixedLength pos force z zf hf hz hzf
  refine ⟨?_, ?_, ?_⟩
  · intro hm
    unfold randomJitterBatch
    apply addNoise_zero_of_lengths
    · exact zipWith3_mem_of_const _ _
        (fun a b c => randomJitterDelta_std_zero mode fixedLength a b c hm) force z zf
    · rw [zipWith3_length, hf, hz, hzf]
      simp
  · intro hm
    unfold randomJitterBatch addNoise
    congr 1
    rw [zipWith3_congr (randomJitterDelta 0 mode none) (fun a _ _ => a)
      (fun a b c => by
        rw [randomJitterDelta_sample_none 0 mode a b c hm, smul3_zero_coeff, add3_zero_right])
      force z zf]
    exact zipWith3_fst force z zf (le_of_eq (hz.symm ▸ hf)) (le_of_eq (hzf.symm ▸ hf))
  · intro hm len hlen i hi hfi
    unfold randomJitterBatch addNoise
    have hdlen : (zipWith3 (randomJitterDelta 0 mode (some len)) force z zf).length
        = pos.length := by
      rw [zipWith3_length, hf, hz, hzf]
      simp
    rw [zipWith_getD add3 pos _ i hi (by rw [hdlen]; exact hi)
      ((0 : ℝ), 0, 0) ((0 : ℝ), 0, 0) ((0 : ℝ), 0, 0)]
    rw [sub3_add3_cancel]
    rw [zipWith3_getD _ force z zf i (by rw [hf]; exact hi) (by rw [hz]; exact hi)
      (by rw [hzf]; exact hi) ((0 : ℝ), 0, 0) ((0 : ℝ), 0, 0) ((0 : ℝ), 0, 0) ((0 : ℝ), 0, 0)]
    rw [randomJitterDelta_sample_some 0 mode len _ _ _ hm]
    rw [smul3_zero_coeff, add3_zero_right]
    exact norm3_fixed_rescale len hlen _ hfi

/-- Witness for C6 (amended) on a one-atom batch in `force_proj` mode with
fixed-length rescaling requested: positions stay unchanged. -/
theorem c6_random_jitter_degenerate_witness :
    ([((0 : ℝ), 0, 1)] : List Vec3).length = ([((1 : ℝ), 2, 3)] : List Vec3).length
    ∧ ([((5 : ℝ), 5, 5)] : List Vec3).length = ([((1 : ℝ), 2, 3)] : List Vec3).length
    ∧ ([((0 : ℝ), 0, 0)] : List Vec3).length = ([((1 : ℝ), 2, 3)] : List Vec3).length
    ∧ ("force_proj" : String) ≠ ("sample_from_force")
    ∧ randomJitterBatch 0 ("force_proj") (some 1)
        [((1 : ℝ), 2, 3)] [((0 : ℝ), 0, 1)] [((5 : ℝ), 5, 5)] [((0 : ℝ), 0, 0)]
      = [((1 : ℝ), 2, 3)] :=
  ⟨rfl, rfl, rfl, by decide,
    (c6_random_jitter_degenerate ("force_proj") (some 1)
      [((1 : ℝ), 2, 3)] [((0 : ℝ), 0, 1)] [((5 : ℝ), 5, 5)] [((0 : ℝ), 0, 0)]
      rfl rfl rfl).1 (by decide)⟩

lemma adamCoordStep_theta_lr_zero (t : ℕ) (theta m v g : ℝ) :
    (adamCoordStep 0 t theta m v g).1 = theta := by
  simp only [adamCoordStep]
  rw [zero_mul, zero_div, sub_zero]

lemma adamVecStep_theta_lr_zero (t : ℕ) (c : AdamCell) (g : Vec3) :
    (adamVecStep 0 t c g).1 = c.1 := by
  simp only [adamVecStep]
  rw [show ((adamCoordStep 0 t c.1.1 c.2.1.1 c.2.2.1 g.1).1,
      (adamCoordStep 0 t c.1.2.1 c.2.1.2.1 c.2.2.2.1 g.2.1).1,
      (adamCoordStep 0 t c.1.2.2 c.2.1.2.2 c.2.2.2.2 g.2.2).1)
      = (c.1.1, c.1.2.1, c.1.2.2) from by
    rw [adamCoordStep_theta_lr_zero, adamCoordStep_theta_lr_zero,
      adamCoordStep_theta_lr_zero]]

lemma zipWith_length_of_le {α β γ : Type} (f : α → β → γ) (l1 : List α) (l2 : List β)
    (h : l1.length ≤ l2.length) : (List.zipWith f l1 l2).length = l1.length := by
  rw [List.length_zipWith]
  omega

lemma map_theta_zipWith (t : ℕ) :
    ∀ (cells : List AdamCell) (gs : List Vec3), cells.length ≤ gs.length →
      (List.zipWith (adamVecStep 0 t) cells gs).map (fun c => c.1)
        = cells.map (fun c => c.1) := by
  intro cells
  induction cells with
  | nil => intro gs _; rfl
  | cons c ct ih =>
      intro gs h
      cases gs with
      | nil => exact absurd h (by simp)
      | cons g gt =>
          rw [List.zipWith_cons_cons, List.map_cons, List.map_cons,
            adamVecStep_theta_lr_zero, ih gt (Nat.le_of_succ_le_succ h)]

/-- Helper: with zero learning rate one whole-list Adam step keeps every
displacement value, and preserves the nested shape. -/
lemma adamListStep_lr_zero (t : ℕ) :
    ∀ (s : List (List AdamCell)) (g : List (List Vec3)),
      s.map List.length = g.map List.length →
      thetaOf (adamListStep 0 t s g) = thetaOf s
        ∧ (adamListStep 0 t s g).map List.length = s.map List.length := by
  intro s
  induction s with
  | nil =>
      intro g _
      exact ⟨rfl, rfl⟩
  | cons cs st ih =>
      intro g hg
      cases g with
      | nil => simp at hg
      | cons gs gt =>
          rw [List.map_cons, List.map_cons] at hg
          injection hg with h1 h2
          unfold adamListStep
          rw [List.zipWith_cons_cons]
          constructor
          · unfold thetaOf
            rw [List.map_cons, List.map_cons, map_theta_zipWith t cs gs (le_of_eq h1)]
            have := (ih gt h2).1
            unfold thetaOf adamListStep at this
            rw [this]
          · rw [List.map_cons, List.map_cons, zipWith_length_of_le _ cs gs (le_of_eq h1)]
            have := (ih gt h2).2
            unfold adamListStep at this
            rw [this]

/-- Helper: with zero learning rate the whole inner optimization loop keeps
every displacement value, and preserves the nested shape. -/
lemma fold_theta_invariant (gradOracle : ℕ → List (List Vec3)) (bl : List (List Vec3))
    (hg : ∀ i, (gradOracle i).map List.length = bl.map List.length) :
    ∀ (steps : List ℕ) (s : List (List AdamCell)),
      s.map List.length = bl.map List.length →
      thetaOf (steps.foldl (fun st i => adamListStep 0 (i + 1) st (gradOracle i)) s)
          = thetaOf s
        ∧ (steps.foldl (fun st i => adamListStep 0 (i + 1) st (gradOracle i)) s).map
            List.length = s.map List.length := by
  intro steps
  induction steps with
  | nil =>
      intro s _
      exact ⟨rfl, rfl⟩
  | cons i it ih =>
      intro s hs
      rw [List.foldl_cons]
      have hstep := adamListStep_lr_zero (i + 1) s (gradOracle i) (hs.trans (hg i).symm)
      obtain ⟨hA, hB⟩ := ih (adamListStep 0 (i + 1) s (gradOracle i)) (hstep.2.trans hs)
      exact ⟨hA.trans hstep.1, hB.trans hstep.2⟩

/-- Helper: re-applying an all-zero displacement field reproduces the
positions. -/
lemma addNoise_assembly :
    ∀ (bl : List (List Vec3)) (s : List (List AdamCell)),
      thetaOf s = bl.map (fun pos => pos.map (fun _ => ((0 : ℝ), 0, 0))) →
      List.zipWith (fun pos cells => addNoise pos (cells.map (fun c => c.1))) bl s = bl := by
  intro bl
  induction bl with
  | nil => intro s _; rfl
  | cons pos bt ih =>
      intro s hth
      cases s with
      | nil => simp [thetaOf] at hth
      | cons cs st =>
          unfold thetaOf at hth
          rw [List.map_cons, List.map_cons] at hth
          injection hth with h1 h2
          rw [List.zipWith_cons_cons]
          rw [addNoise_zero_of_lengths pos (cs.map (fun c => c.1))
            (by
              intro d hd
              rw [h1] at hd
              obtain ⟨x, -, rfl⟩ := List.mem_map.1 hd
              rfl)
            (by rw [h1]; simp)]
          have := ih st h2
          unfold thetaOf at this
          rw [this]


/-- C5 counterexample: with zero configured inner iterations the loop body
that binds `return_batch` never runs, so `_adversarial_batch` fails with an
unbound local variable instead of returning a batch equal to the input —
the claim's "every configured number of inner iterations" fails at 0. -/
theorem c5_counterexample :
    adversarialBatch 0 0 0 [[((0 : ℝ), 0, 0)]] [[((0 : ℝ), 0, 0)]]
        (fun _ => [[((0 : ℝ), 0, 0)]])
      ≠ some [[((0 : ℝ), 0, 0)]] := by
  simp only [adversarialBatch]
  rw [if_neg (lt_irrefl (0 : ℝ))]
  simp

/-- C5 (amended): with zero initial displacement standard deviation and
zero adversarial learning rate, and at least one inner iteration, the
single-step adversarial generator returns a batch numerically equal to its
input for every input batch list and every gradient history of matching
shape: the displacement starts at zero and every Adam step with `lr = 0`
leaves it at zero.  (With zero configured iterations the call instead fails
on an unbound local, see the counterexample.) -/
theorem c5_adversarial_identity :
    ∀ (nSteps : ℕ) (bl initNoise : List (List Vec3)) (gradOracle : ℕ → List (List Vec3)),
      1 ≤ nSteps →
      (∀ i, (gradOracle i).map List.length = bl.map List.length) →
      adversarialBatch 0 0 nSteps bl initNoise gradOracle = some bl := by
  intro n bl noise gradOracle hn hg
  simp only [adversarialBatch]
  rw [if_neg (lt_irrefl (0 : ℝ)), if_neg (by omega : ¬ n = 0)]
  refine congrArg some ?_
  have hs0shape :
      ((bl.map (fun pos => pos.map (fun _ => ((0 : ℝ), 0, 0)))).map
        (fun ds => ds.map (fun d => ((d, ((0 : ℝ), 0, 0), ((0 : ℝ), 0, 0)) : AdamCell)))).map List.length
      = bl.map List.length := by
    simp [List.map_map]
  have hs0theta :
      thetaOf ((bl.map (fun pos => pos.map (fun _ => ((0 : ℝ), 0, 0)))).map
        (fun ds => ds.map (fun d => ((d, ((0 : ℝ), 0, 0), ((0 : ℝ), 0, 0)) : AdamCell))))
      = bl.map (fun pos => pos.map (fun _ => ((0 : ℝ), 0, 0))) := by
    simp [thetaOf, List.map_map]
  have hfold := fold_theta_invariant gradOracle bl hg (List.range n)
    ((bl.map (fun pos => pos.map (fun _ => ((0 : ℝ), 0, 0)))).map
      (fun ds => ds.map (fun d => ((d, ((0 : ℝ), 0, 0), ((0 : ℝ), 0, 0)) : AdamCell)))) hs0shape
  exact addNoise_assembly bl _ (hfold.1.trans hs0theta)

/-- Witness for C5 (amended): one inner iteration on a one-atom batch with
an arbitrary nonzero gradient row. -/
theorem c5_adversarial_identity_witness :
    1 ≤ 1
    ∧ (∀ i : ℕ, ((fun _ : ℕ => [[(((7 : ℝ), 8, 9) : Vec3)]]) i).map List.length
        = ([[(((1 : ℝ), 2, 3) : Vec3)]] : List (List Vec3)).map List.length)
    ∧ adversarialBatch 0 0 1 [[(((1 : ℝ), 2, 3) : Vec3)]] [[((0 : ℝ), 0, 0)]]
        (fun _ => [[(((7 : ℝ), 8, 9) : Vec3)]])
      = some [[(((1 : ℝ), 2, 3) : Vec3)]] :=
  ⟨le_refl 1, fun _ => rfl,
    c5_adversarial_identity 1 [[(((1 : ℝ), 2, 3) : Vec3)]] [[((0 : ℝ), 0, 0)]]
      (fun _ => [[(((7 : ℝ), 8, 9) : Vec3)]]) (le_refl 1) (fun _ => rfl)⟩

/-- C4: the global-preservation loss of identical student and teacher
feature tensors is zero for every batch composition — the two per-system
pairwise distance profiles coincide, so every squared discrepancy, every
scatter-mean over atoms and systems, and the final mean are zero. -/
theorem c4_global_preservation_zero (feat : List (List ℚ)) (natoms : List ℕ)
    (_hne : natoms ≠ []) : globalPreservation feat feat natoms = 0 :=
  gmean_of_zeros _
    (scatterMean_of_zeros _ _ _
      (scatterMean_of_zeros _ _ _ (zipWith_sub_sq_self _)))

/-- Witness for C4 on a concrete ragged batch: systems of 1 and 2 atoms with
one-dimensional features. -/
theorem c4_global_preservation_zero_witness :
    ([1, 2] : List ℕ) ≠ []
    ∧ globalPreservation [[(1 : ℚ)], [2], [3]] [[(1 : ℚ)], [2], [3]] [1, 2] = 0 :=
  ⟨by decide, c4_global_preservation_zero [[(1 : ℚ)], [2], [3]] [1, 2] (by decide)⟩

/-- C8: loading a non-distributed checkpoint (second dotted component of its
first key is not `module`) into a distributed-wrapped teacher prepends
`module.` to every key and then succeeds when the prefixed keys match the
model; loading a distributed checkpoint into a non-distributed teacher
strips the 7-character `module.` prefix from every key and then succeeds
when the stripped keys match; and whenever the adjusted keys do not match
the model's, loading surfaces the state-mismatch error to the caller. -/
theorem c8_checkpoint_key_adjustment :
    (∀ ckptKeys modelKeys : List String,
      ¬ keySecondComponent (ckptKeys.headD ("")) = ("module") →
      adjustCheckpointKeys true false ckptKeys = ckptKeys.map (fun k => ("module.") ++ k)
        ∧ (ckptKeys.map (fun k => ("module.") ++ k) = modelKeys →
            loadTeacher true false modelKeys ckptKeys = Except.ok ()))
    ∧ (∀ (ckptKeys modelKeys : List String) (initialized noddp : Bool),
      (initialized = false ∨ noddp = true) →
      keySecondComponent (ckptKeys.headD ("")) = ("module") →
      adjustCheckpointKeys initialized noddp ckptKeys
          = ckptKeys.map (fun k => stringDropChars k 7)
        ∧ (ckptKeys.map (fun k => stringDropChars k 7) = modelKeys →
            loadTeacher initialized noddp modelKeys ckptKeys = Except.ok ()))
    ∧ (∀ (initialized noddp : Bool) (ckptKeys modelKeys : List String),
      adjustCheckpointKeys initialized noddp ckptKeys ≠ modelKeys →
      loadTeacher initialized noddp modelKeys ckptKeys
        = Except.error ("Error in loading state_dict: keys mismatch")) := by
  refine ⟨?_, ?_, ?_⟩
  · intro ck mk h
    have hadj : adjustCheckpointKeys true false ck = ck.map (fun k => ("module.") ++ k) := by
      unfold adjustCheckpointKeys
      rw [if_neg (by simp [h]), if_pos ⟨rfl, h⟩]
    refine ⟨hadj, fun hmk => ?_⟩
    unfold loadTeacher loadStateDict
    rw [hadj, if_pos hmk]
  · intro ck mk initialized noddp hda h
    have hadj : adjustCheckpointKeys initialized noddp ck
        = ck.map (fun k => stringDropChars k 7) := by
      unfold adjustCheckpointKeys
      rw [if_pos ⟨hda, h⟩]
    refine ⟨hadj, fun hmk => ?_⟩
    unfold loadTeacher loadStateDict
    rw [hadj, if_pos hmk]
  · intro initialized noddp ck mk h
    unfold loadTeacher loadStateDict
    rw [if_neg h]

/-- Witness for C8: prefix addition on `["module.lin.weight"]` into a
DDP-wrapped model, and prefix stripping of `["module.module.lin.weight"]`
into a non-distributed model, both ending in a successful load. -/
theorem c8_checkpoint_key_adjustment_witness :
    (¬ keySecondComponent ((["module.lin.weight"] : List String).headD ("")) = ("module"))
    ∧ loadTeacher true false ["module.module.lin.weight"] ["module.lin.weight"]
        = Except.ok ()
    ∧ ((false = false ∨ false = true) : Prop)
    ∧ keySecondComponent ((["module.module.lin.weight"] : List String).headD ("")) = ("module")
    ∧ loadTeacher false false ["module.lin.weight"] ["module.module.lin.weight"]
        = Except.ok () :=
  ⟨by decide,
    (c8_checkpoint_key_adjustment.1 ["module.lin.weight"] ["module.module.lin.weight"]
      (by decide)).2 (by decide),
    Or.inl rfl,
    by decide,
    (c8_checkpoint_key_adjustment.2.1 ["module.module.lin.weight"] ["module.lin.weight"]
      false false (Or.inl rfl) (by decide)).2 (by decide)⟩

lemma normSq3_nonneg (v : Vec3) : 0 ≤ normSq3 v := by
  unfold normSq3
  positivity

lemma epsCosine_pos : 0 < epsCosine := by
  unfold epsCosine
  norm_num

lemma norm3_mul_self (v : Vec3) : norm3 v * norm3 v = normSq3 v :=
  Real.mul_self_sqrt (normSq3_nonneg v)

/-- Helper: the cosine similarity of a positive multiple with a product of
norms above the clamping epsilon is exactly 1. -/
lemma cosineSim_of_pos_multiple (k : ℝ) (tc : Vec3) (hk : 0 < k)
    (heps : epsCosine ≤ norm3 (smul3 k tc) * norm3 tc) :
    cosineSim (smul3 k tc) tc = 1 := by
  have hprod : norm3 (smul3 k tc) * norm3 tc = k * normSq3 tc := by
    rw [norm3_smul, abs_of_pos hk, mul_assoc, norm3_mul_self]
  have hd : dot3 (smul3 k tc) tc = k * normSq3 tc := by
    unfold dot3 smul3 normSq3
    ring
  have hpos : 0 < k * normSq3 tc := lt_of_lt_of_le epsCosine_pos (hprod ▸ heps)
  unfold cosineSim
  rw [max_eq_left heps, hd, hprod, div_self hpos.ne']

lemma zipWith_eq_zero_of_forall2 {α β γ : Type} [Zero γ] (f : α → β → γ)
    {R : α → β → Prop} {l1 : List α} {l2 : List β}
    (hF : List.Forall₂ R l1 l2) (hf : ∀ a b, R a b → f a b = 0) :
    ∀ x ∈ List.zipWith f l1 l2, x = 0 := by
  induction hF with
  | nil => intro x hx; cases hx
  | cons hab _htail ih =>
      intro x hx
      rw [List.zipWith_cons_cons] at hx
      rcases List.mem_cons.1 hx with h | h
      · rw [h]
        exact hf _ _ hab
      · exact ih x h

/-- C7 counterexample: the all-zero student vector is a positive scalar
multiple (factor 1) of the all-zero teacher vector, yet the direction term
is 1, not 0 — `F.cosine_similarity` of two zero rows is 0 (the zero dot
product over the clamped norm product), so `1 - cos` contributes 1 —
contradicting the claim that the direction term vanishes whenever each
student vector is a positive scalar multiple of the teacher's. -/
theorem c7_counterexample :
    (((0 : ℝ), 0, 0) : Vec3) = smul3 1 ((0 : ℝ), 0, 0)
    ∧ (0 : ℝ) < 1
    ∧ v2vDirLoss [[((0 : ℝ), 0, 0)]] [[((0 : ℝ), 0, 0)]] [1] = 1 := by
  refine ⟨by unfold smul3; simp, by norm_num, ?_⟩
  have hc : cosineSim ((0 : ℝ), 0, 0) ((0 : ℝ), 0, 0) = 0 := by
    unfold cosineSim
    rw [show dot3 ((0 : ℝ), 0, 0) ((0 : ℝ), 0, 0) = 0 from by unfold dot3; ring, zero_div]
  simp only [v2vDirLoss]
  rw [show List.zipWith
      (fun sa ta => gmean (List.zipWith (fun sc tc => 1 - cosineSim sc tc) sa ta))
      [[(((0 : ℝ), 0, 0) : Vec3)]] [[(((0 : ℝ), 0, 0) : Vec3)]]
      = [gmean [1 - cosineSim ((0 : ℝ), 0, 0) ((0 : ℝ), 0, 0)]] from rfl]
  rw [hc]
  simp [scatterMean, gmean, batchVec, List.range_succ]

/-- C7 (amended): the vector-to-vector geometric loss is
`(1 - lambda) * magnitude-term + lambda * direction-term` for the
configured `lambda` in `[0, 1]`; the direction term vanishes whenever each
student vector is a positive scalar multiple of the corresponding teacher
vector whose norm product is at least the cosine-similarity clamping
epsilon `1e-8` (for smaller products — in particular zero vectors — the
clamped cosine falls below 1 and the term does not vanish); the magnitude
term vanishes whenever corresponding norms match exactly. -/
theorem c7_v2v_geometric_terms :
    ∀ (lam : ℝ) (featS featT : List (List Vec3)) (natoms : List ℕ),
      0 ≤ lam → lam ≤ 1 →
      v2vGeometric lam featS featT natoms
          = (1 - lam) * v2vNormLoss featS featT natoms
            + lam * v2vDirLoss featS featT natoms
        ∧ (List.Forall₂ (fun sa ta => List.Forall₂
              (fun sc tc => ∃ k : ℝ, 0 < k ∧ sc = smul3 k tc
                ∧ epsCosine ≤ norm3 sc * norm3 tc) sa ta) featS featT →
            v2vDirLoss featS featT natoms = 0)
        ∧ (List.Forall₂ (fun sa ta => List.Forall₂
              (fun sc tc => norm3 sc = norm3 tc) sa ta) featS featT →
            v2vNormLoss featS featT natoms = 0) := by
  intro lam S T natoms _h0 _h1
  refine ⟨rfl, ?_, ?_⟩
  · intro hF
    unfold v2vDirLoss
    apply gmean_of_zeros
    apply scatterMean_of_zeros
    refine zipWith_eq_zero_of_forall2 _ hF (fun sa ta hrel => ?_)
    refine gmean_of_zeros _ (zipWith_eq_zero_of_forall2 _ hrel (fun sc tc hp => ?_))
    obtain ⟨k, hk, hsc, heps⟩ := hp
    rw [hsc] at heps ⊢
    rw [cosineSim_of_pos_multiple k tc hk heps]
    norm_num
  · intro hF
    unfold v2vNormLoss
    apply gmean_of_zeros
    apply scatterMean_of_zeros
    refine zipWith_eq_zero_of_forall2 _ hF (fun sa ta hrel => ?_)
    refine gmean_of_zeros _ (zipWith_eq_zero_of_forall2 _ hrel (fun sc tc hp => ?_))
    rw [hp, sub_self, abs_zero]

/-- Witness for C7 (amended): one atom, one channel, with the student
vector `(3, 4, 0)` twice the teacher vector `(3/2, 2, 0)` (norm product
`25/2` above the epsilon), so the direction term is zero. -/
theorem c7_v2v_geometric_terms_witness :
    (0 : ℝ) ≤ 1 / 2 ∧ (1 / 2 : ℝ) ≤ 1
    ∧ v2vDirLoss [[(((3 : ℝ), 4, 0) : Vec3)]] [[(((3 / 2 : ℝ), 2, 0) : Vec3)]] [1] = 0 :=
  ⟨by norm_num, by norm_num,
    (c7_v2v_geometric_terms (1 / 2) [[(((3 : ℝ), 4, 0) : Vec3)]]
      [[(((3 / 2 : ℝ), 2, 0) : Vec3)]] [1] (by norm_num) (by norm_num)).2.1
      (by
        refine List.Forall₂.cons
          (List.Forall₂.cons ⟨2, by norm_num, ?_, ?_⟩ List.Forall₂.nil) List.Forall₂.nil
        · unfold smul3
          norm_num [Prod.ext_iff]
        · have h5 : norm3 (((3 : ℝ), 4, 0) : Vec3) = 5 := by
            unfold norm3 normSq3
            rw [show (3 : ℝ) ^ 2 + 4 ^ 2 + 0 ^ 2 = 5 ^ 2 from by norm_num,
              Real.sqrt_sq (by norm_num : (0 : ℝ) ≤ 5)]
          have h52 : norm3 (((3 / 2 : ℝ), 2, 0) : Vec3) = 5 / 2 := by
            unfold norm3 normSq3
            rw [show (3 / 2 : ℝ) ^ 2 + 2 ^ 2 + 0 ^ 2 = (5 / 2) ^ 2 from by norm_num,
              Real.sqrt_sq (by norm_num : (0 : ℝ) ≤ 5 / 2)]
          rw [h5, h52]
          unfold epsCosine
          norm_num)⟩

/-- C9 counterexample: a trainer constructed with the out-of-bounds ratio
`loss_weighting_synthetic = -1` is built without any failure (the
constructor never inspects the ratio), and the assertion only fires later,
inside the per-batch weight computation — contradicting the claim that the
out-of-bounds ratio is fatal at construction time, before any batch is
processed. -/
theorem c9_counterexample :
    trainerInit ⟨some (-1), 1 / 2, Sum.inl 1, ["node2node_distill_loss"]⟩
        = Except.ok [1]
    ∧ lossWeightsD1M (some (-1)) ⟨[0], [1]⟩
        = Except.error ("assert failed: ratio_synth_to_dft must be positive") := by
  constructor
  · unfold trainerInit
    rw [if_pos (by norm_num)]
    rfl
  · simp only [lossWeightsD1M]
    rw [if_neg (by norm_num)]

/-- C9 (amended): only the `v2v_geom_lambda ∈ [0, 1]` bound is enforced at
construction time.  A non-positive synthetic-to-real ratio passes
construction untouched and becomes fatal at the first loss-weight
computation (the first processed batch); a coefficient list of the wrong
length is likewise accepted at construction (no shape check exists there). -/
theorem c9_config_error_timing :
    (∀ (cfg : DistillConfig) (rho : ℚ) (b : BatchMeta),
      cfg.lossWeightingSynthetic = some rho → rho ≤ 0 →
      0 ≤ cfg.v2vGeomLambda → cfg.v2vGeomLambda ≤ 1 →
      trainerInit cfg
          = Except.ok (broadcastLambdas cfg.distillLambda cfg.distillFns.length)
        ∧ lossWeightsD1M cfg.lossWeightingSynthetic b
          = Except.error ("assert failed: ratio_synth_to_dft must be positive"))
    ∧ (∀ cfg : DistillConfig, ¬ (0 ≤ cfg.v2vGeomLambda ∧ cfg.v2vGeomLambda ≤ 1) →
      trainerInit cfg
        = Except.error ("assert failed: v2v_geom_lambda must be between 0 and 1"))
    ∧ (∀ (cfg : DistillConfig) (xs : List ℚ),
      0 ≤ cfg.v2vGeomLambda → cfg.v2vGeomLambda ≤ 1 → cfg.distillLambda = Sum.inr xs →
      trainerInit cfg = Except.ok xs) := by
  refine ⟨?_, ?_, ?_⟩
  · intro cfg rho b hr hneg h0 h1
    constructor
    · unfold trainerInit
      rw [if_pos ⟨h0, h1⟩]
    · rw [hr]
      simp only [lossWeightsD1M]
      rw [if_neg (not_lt.2 hneg)]
  · intro cfg h
    unfold trainerInit
    rw [if_neg h]
  · intro cfg xs h0 h1 hxs
    unfold trainerInit
    rw [if_pos ⟨h0, h1⟩, hxs]
    rfl

/-- Witness for C9 (amended) at a concrete configuration with ratio `-2`. -/
theorem c9_config_error_timing_witness :
    (⟨some (-2), 1 / 2, Sum.inl 1, ["node2node_distill_loss"]⟩ :
        DistillConfig).lossWeightingSynthetic = some (-2)
    ∧ (-2 : ℚ) ≤ 0
    ∧ (0 : ℚ) ≤ 1 / 2 ∧ (1 / 2 : ℚ) ≤ 1
    ∧ (trainerInit ⟨some (-2), 1 / 2, Sum.inl 1, ["node2node_distill_loss"]⟩
          = Except.ok (broadcastLambdas (Sum.inl 1) 1)
        ∧ lossWeightsD1M (some (-2)) ⟨[7], [4]⟩
          = Except.error ("assert failed: ratio_synth_to_dft must be positive")) :=
  ⟨rfl, by norm_num, by norm_num, by norm_num,
    c9_config_error_timing.1 ⟨some (-2), 1 / 2, Sum.inl 1, ["node2node_distill_loss"]⟩
      (-2) ⟨[7], [4]⟩ rfl (by norm_num) (by norm_num) (by norm_num)⟩

/-- C10: `_compute_loss` rebinds its output-dictionary argument before
evaluating the loss — the energies are multiplied elementwise by the
per-sample provenance weights and the forces by the per-atom provenance
weights (exactly the `_loss_weights_d1M` weights when neither configured
loss function is named `mse`) — and the train step hands that same
dictionary to `_compute_metrics`, so the metrics of the step observe the
weight-scaled predictions rather than the raw network outputs. -/
theorem c10_compute_loss_mutates_out :
    ∀ (rho : ℚ) (b : BatchMeta) (wN wS : List ℚ)
      (lossFnEnergy : List ℝ → List ℝ → ℝ) (lossFnForce : List Vec3 → List Vec3 → ℝ)
      (energyCoeff forceCoeff : ℝ) (out : OutDict)
      (energyTarget : List ℝ) (forceTarget : List Vec3),
      lossWeightsD1M (some rho) b = Except.ok (wN, wS) →
      computeLoss false false (some rho) b lossFnEnergy lossFnForce energyCoeff forceCoeff
          out energyTarget forceTarget
        = Except.ok
            (energyCoeff * lossFnEnergy
                (List.zipWith (fun e wi => e * wi) out.energy (wS.map (fun q => (q : ℝ))))
                (List.zipWith (fun e wi => e * wi) energyTarget (wS.map (fun q => (q : ℝ))))
              + forceCoeff * lossFnForce
                (List.zipWith (fun f wi => smul3 wi f) out.forces (wN.map (fun q => (q : ℝ))))
                (List.zipWith (fun f wi => smul3 wi f) forceTarget
                  (wN.map (fun q => (q : ℝ)))),
              { energy := List.zipWith (fun e wi => e * wi) out.energy
                  (wS.map (fun q => (q : ℝ))),
                forces := List.zipWith (fun f wi => smul3 wi f) out.forces
                  (wN.map (fun q => (q : ℝ))) })
        ∧ trainStepMetricsInput false false (some rho) b lossFnEnergy lossFnForce
            energyCoeff forceCoeff out energyTarget forceTarget
          = Except.ok
              { energy := List.zipWith (fun e wi => e * wi) out.energy
                  (wS.map (fun q => (q : ℝ))),
                forces := List.zipWith (fun f wi => smul3 wi f) out.forces
                  (wN.map (fun q => (q : ℝ))) } := by
  intro rho b wN wS lossFnEnergy lossFnForce eC fC out eT fT hW
  constructor
  · simp [computeLoss, hW]
  · simp [trainStepMetricsInput, computeLoss, hW, Except.map]

/-- Witness for C10 on a two-system batch (one real, one synthetic, one
atom each) with ratio 2, where the weights are `[2/3, 4/3]`. -/
theorem c10_compute_loss_mutates_out_witness :
    lossWeightsD1M (some 2) ⟨[0, 5000000], [1, 1]⟩
        = Except.ok (specPerNode 2 ⟨[0, 5000000], [1, 1]⟩,
            specPerSample 2 ⟨[0, 5000000], [1, 1]⟩)
    ∧ trainStepMetricsInput false false (some 2) ⟨[0, 5000000], [1, 1]⟩
        (fun _ _ => 0) (fun _ _ => 0) 1 30
        ⟨[1, 1], [((1 : ℝ), 0, 0), ((0 : ℝ), 1, 0)]⟩ [0, 0] [((0 : ℝ), 0, 0), ((0 : ℝ), 0, 0)]
      = Except.ok
          { energy := List.zipWith (fun e wi => e * wi) ([1, 1] : List ℝ)
              ((specPerSample 2 ⟨[0, 5000000], [1, 1]⟩).map (fun q => (q : ℝ))),
            forces := List.zipWith (fun f wi => smul3 wi f)
              ([((1 : ℝ), 0, 0), ((0 : ℝ), 1, 0)] : List Vec3)
              ((specPerNode 2 ⟨[0, 5000000], [1, 1]⟩).map (fun q => (q : ℝ))) } :=
  ⟨lossWeights_eq_spec 2 ⟨[0, 5000000], [1, 1]⟩ (by norm_num),
    (c10_compute_loss_mutates_out 2 ⟨[0, 5000000], [1, 1]⟩
      (specPerNode 2 ⟨[0, 5000000], [1, 1]⟩) (specPerSample 2 ⟨[0, 5000000], [1, 1]⟩)
      (fun _ _ => 0) (fun _ _ => 0) 1 30
      ⟨[1, 1], [((1 : ℝ), 0, 0), ((0 : ℝ), 1, 0)]⟩ [0, 0] [((0 : ℝ), 0, 0), ((0 : ℝ), 0, 0)]
      (lossWeights_eq_spec 2 ⟨[0, 5000000], [1, 1]⟩ (by norm_num))).2⟩

end OCP
